import Mathlib

/-!
Shallow embedding of `skuld/conf/__init__.py`: the `Settings` class (resolved
settings built from a default catalog plus an environment-named override
module), the `SettingsHolder` class (explicit overrides and deletions over a
default provider), and the `LazySettings` proxy (deferred resolution with a
local attribute cache).

Python values are modelled by the inductive `PyVal`; Python objects whose
attributes matter to the claims (modules, the default catalog, instance
`__dict__`s) are modelled as association lists from attribute-name strings to
`PyVal`s.  Machinery the claims never touch (method objects on the classes,
dunder attributes of real modules) is omitted; where that omission could
matter it is noted at the definition.
-/

/-- A Python value, restricted to the shapes the configuration code
inspects: truthiness, list/tuple-ness, strings, and opaque internal objects
(the holder's `_deleted` set object and `default_settings` provider object,
which live in its `__dict__` but are never read back as option values). -/
inductive PyVal where
  | none
  | bool (b : Bool)
  | int (n : Int)
  | str (s : String)
  | list (xs : List PyVal)
  | tuple (xs : List PyVal)
  | pset (xs : List PyVal)
  | internalObj

/-- Python truthiness (`bool(v)`) for the modelled value shapes. -/
def pyTruthy : PyVal → Bool
  | .none => false
  | .bool b => b
  | .int n => n != 0
  | .str s => !(s == "")
  | .list xs => !xs.isEmpty
  | .tuple xs => !xs.isEmpty
  | .pset xs => !xs.isEmpty
  | .internalObj => true

/-- `isinstance(v, (list, tuple))`. -/
def isListOrTuple : PyVal → Bool
  | .list _ => true
  | .tuple _ => true
  | _ => false

/-- `str.isupper()`: at least one cased character and no cased character is
lower case (modelled over ASCII letters, which covers every option name the
code manipulates). -/
def pyIsUpper (s : String) : Bool :=
  s.data.any (fun c => c.isAlpha) && s.data.all (fun c => !c.isLower)

/-- Whether the character list `sub` occurs at the head of `s`. -/
def takesAt : List Char → List Char → Bool
  | [], _ => true
  | _ :: _, [] => false
  | c :: cs, d :: ds => c == d && takesAt cs ds

/-- Whether the character list `sub` occurs contiguously inside `s`. -/
def hasSubList (sub : List Char) : List Char → Bool
  | [] => takesAt sub []
  | d :: ds => takesAt sub (d :: ds) || hasSubList sub ds

/-- Python's `sub in s` on strings: substring containment. -/
def pyStrIn (sub s : String) : Bool :=
  hasSubList sub.data s.data

/-- Association-list lookup on an object `__dict__` / module attribute table
(first binding wins). -/
def dlookup (l : List (String × PyVal)) (k : String) : Option PyVal :=
  match l with
  | [] => Option.none
  | (k', v) :: t => if k' = k then some v else dlookup t k

/-- `d[k] = v` on a Python dict: overwrite in place if present, else append
(keys stay unique; insertion order is irrelevant to the claims because every
enumeration below sorts). -/
def dinsert : List (String × PyVal) → String → PyVal → List (String × PyVal)
  | [], k, v => [(k, v)]
  | (k', v') :: t, k, v => if k' = k then (k, v) :: t else (k', v') :: dinsert t k v

/-- `d.pop(k, None)` / `del d[k]`: remove the binding of `k` if present. -/
def dremoveKey : List (String × PyVal) → String → List (String × PyVal)
  | [], _ => []
  | (k', v') :: t, k => if k' = k then t else (k', v') :: dremoveKey t k

/-- Insert a string into a set-as-list if absent (`set.add`). -/
def sinsert (s : List String) (x : String) : List String :=
  if x ∈ s then s else x :: s

/-- `set.discard`: remove every occurrence. -/
def sdiscard (s : List String) (x : String) : List String :=
  s.filter (fun y => y ≠ x)

/-- Code-point lexicographic comparison on character lists: Python's string
ordering, used by `sorted`. -/
def charListLe : List Char → List Char → Bool
  | [], _ => true
  | _ :: _, [] => false
  | c :: cs, d :: ds => if c.toNat = d.toNat then charListLe cs ds else decide (c.toNat < d.toNat)

/-- `a <= b` on Python strings. -/
def strLe (a b : String) : Bool :=
  charListLe a.data b.data

/-- Python's `sorted` on a list of strings. -/
def pySorted (l : List String) : List String :=
  List.insertionSort (fun a b => strLe a b = true) l

/-- A Python module (or the default catalog, or any default-values provider):
its attribute table.  `dir(mod)` is modelled by `pdir`. -/
structure PyMod where
  attrs : List (String × PyVal)

/-- `dir(m)`: the sorted, duplicate-free list of attribute names. -/
def pdir (m : PyMod) : List String :=
  pySorted ((m.attrs.map Prod.fst).dedup)

/-- `getattr(m, k)` where `k` is known to be an attribute (used only for
names produced by `pdir`); absent names give a placeholder never reached. -/
def pget (m : PyMod) (k : String) : PyVal :=
  (dlookup m.attrs k).getD PyVal.none

/-- The errors the embedded code can raise. -/
inductive Err where
  | improperly (msg : String)     -- ImproperlyConfigured
  | attrError                     -- AttributeError
  | moduleNotFound (m : String)   -- ModuleNotFoundError from importlib
  | runtimeError (msg : String)   -- RuntimeError
deriving DecidableEq

/-- The state of a constructed `Settings` instance: its option attributes
(including `SETTINGS_MODULE`) and the `_explicit_settings` set. -/
structure SettingsState where
  attrs : List (String × PyVal)
  explicitS : List String

/-- `getattr` on a `Settings` instance for option attributes: instance
`__dict__` lookup, `AttributeError` if absent (the class's methods and the
`_explicit_settings` set object are never read as options by the claims and
are omitted). -/
def sgetattr (s : SettingsState) (name : String) : Except Err PyVal :=
  match dlookup s.attrs name with
  | some v => .ok v
  | Option.none => .error .attrError

/-- Plain `setattr` on a `Settings` instance (the class defines no custom
`__setattr__`); does not touch `_explicit_settings`. -/
def ssetattr (s : SettingsState) (name : String) (v : PyVal) : SettingsState :=
  { s with attrs := dinsert s.attrs name v }

/-- `Settings.is_overridden`: membership in `_explicit_settings`. -/
def s_is_overridden (s : SettingsState) (name : String) : Bool :=
  name ∈ s.explicitS

/-- The string the source compares module attribute names against:
`tuple_settings = ('INSTALLED_APPS')` is a parenthesised *string*, so the
later `setting in tuple_settings` is a substring test. -/
def tuple_settings : String := "INSTALLED_APPS"

/-- The overlay loop of `Settings.__init__` over `dir(mod)`: for each
upper-case name, reject a non-list/tuple value whenever the name is a
substring of `tuple_settings`, otherwise copy the value and record the name
in `_explicit_settings`. -/
def overlay (mod : PyMod) : List String → SettingsState → Except Err SettingsState
  | [], st => .ok st
  | n :: ns, st =>
    if pyIsUpper n then
      let v := pget mod n
      if pyStrIn n tuple_settings && !isListOrTuple v then
        .error (.improperly ("The " ++ n ++ " setting must be a list or a tuple."))
      else overlay mod ns { attrs := dinsert st.attrs n v,
                            explicitS := sinsert st.explicitS n }
    else overlay mod ns st

/-- The base copy of `Settings.__init__`: every upper-case attribute of the
default catalog, in `dir` order. -/
def baseCopy (gs : PyMod) : List (String × PyVal) :=
  (pdir gs).foldl
    (fun a n => if pyIsUpper n then dinsert a n (pget gs n) else a) []

/-- The tail of `Settings.__init__` after the overlay: `if not
self.SECRET_KEY` (an attribute read, so an absent `SECRET_KEY` raises
AttributeError) failing with Misconfiguration on a falsy value, then the
`TIME_ZONE` read guarding the tzset side effect (the effect itself is
outside the model; an absent `TIME_ZONE` raises AttributeError when the
platform has `tzset`). -/
def secretAndTzCheck (hasTzset : Bool) (st : SettingsState) : Except Err SettingsState :=
  match dlookup st.attrs "SECRET_KEY" with
  | Option.none => .error .attrError
  | some sk =>
    if !pyTruthy sk then
      .error (.improperly "The SECRET_KEY setting must not be empty.")
    else if hasTzset then
      match dlookup st.attrs "TIME_ZONE" with
      | Option.none => .error .attrError
      | some _ => .ok st
    else .ok st

/-- `Settings.__init__(settings_module)`.  `gs` is the default catalog
(`global_settings`), `hasTzset` models `hasattr(time, 'tzset')`, `imports`
models `importlib.import_module` (None = ModuleNotFoundError).  Steps: copy
upper-case defaults; set `SETTINGS_MODULE`; import the module; overlay its
upper-case attributes (with the tuple-shape check); fail if the resolved
`SECRET_KEY` is falsy; touch `TIME_ZONE` for the tzset side effect
(`secretAndTzCheck`). -/
def settingsInit (gs : PyMod) (hasTzset : Bool) (imports : String → Option PyMod)
    (modName : String) : Except Err SettingsState :=
  let attrs1 := dinsert (baseCopy gs) "SETTINGS_MODULE" (PyVal.str modName)
  match imports modName with
  | Option.none => .error (.moduleNotFound modName)
  | some mod =>
    match overlay mod (pdir mod) { attrs := attrs1, explicitS := [] } with
    | .error e => .error e
    | .ok st => secretAndTzCheck hasTzset st

/-- The state of a `SettingsHolder`: the `_deleted` name set and the
instance `__dict__` (which also carries the internal `_deleted` and
`default_settings` entries created by `__init__`, modelled as
`internalObj`).  The default provider itself is passed separately to the
operations that consult it. -/
structure HolderState where
  deleted : List String
  dict : List (String × PyVal)

/-- `SettingsHolder.__init__(default_settings)`: seed `__dict__` with the
`_deleted` set, then `self.default_settings = default_settings` goes through
`__setattr__` and stores the provider in `__dict__`. -/
def holderInit : HolderState :=
  { deleted := [],
    dict := [("_deleted", PyVal.internalObj), ("default_settings", PyVal.internalObj)] }

/-- `getattr` on a holder, following Python's attribute protocol: instance
`__dict__` first, then the class attribute `SETTINGS_MODULE = None`, then
`__getattr__` (deleted → AttributeError, else delegate to the provider).
Method names on the class are omitted: no claim reads one. -/
def hget (ds : PyMod) (h : HolderState) (name : String) : Except Err PyVal :=
  match dlookup h.dict name with
  | some v => .ok v
  | Option.none =>
    if name = "SETTINGS_MODULE" then .ok PyVal.none
    else if name ∈ h.deleted then .error .attrError
    else
      match dlookup ds.attrs name with
      | some v => .ok v
      | Option.none => .error .attrError

/-- `SettingsHolder.__setattr__`: discard the name from `_deleted`, then
store the value in `__dict__`. -/
def hset (h : HolderState) (name : String) (v : PyVal) : HolderState :=
  { deleted := sdiscard h.deleted name, dict := dinsert h.dict name v }

/-- `SettingsHolder.__delattr__`: add the name to `_deleted`; then
`hasattr(self, name)` — true exactly when the name is in `__dict__` or is
the class attribute `SETTINGS_MODULE`, since `__getattr__` now sees the name
in `_deleted` and raises — and on true, `object.__delattr__` removes the
`__dict__` entry (raising AttributeError when only the class attribute
exists; the `__dict__` effect is the same either way). -/
def hdelete (h : HolderState) (name : String) : Except Err Unit × HolderState :=
  let h' : HolderState :=
    { deleted := sinsert h.deleted name, dict := dremoveKey h.dict name }
  if (dlookup h.dict name).isSome then (.ok (), h')
  else if name = "SETTINGS_MODULE" then (.error .attrError, h')
  else (.ok (), h')

/-- `SettingsHolder.__dir__`: sort the concatenation of the `__dict__` keys
and `dir(default_settings)`, filtered by `_deleted` (no deduplication in the
source). -/
def hdir (ds : PyMod) (h : HolderState) : List String :=
  pySorted (((h.dict.map Prod.fst) ++ pdir ds).filter (fun s => s ∉ h.deleted))

/-- `SettingsHolder.is_overridden`: deleted, or set locally, or reported by
the provider's own `is_overridden`; a plain module provider (the only kind
the claims build) has none, so that recursive disjunct is the fallback
`lambda s: False`. -/
def h_is_overridden (h : HolderState) (name : String) : Bool :=
  name ∈ h.deleted || (dlookup h.dict name).isSome || false

/-- `ENVIRONMENT_VARIABLE`'s value in the process environment: `Option.none`
models an unset variable. -/
def envTruthy : Option String → Bool
  | Option.none => false
  | some s => !(s == "")

/-- The backing object in the proxy's `_wrapped` slot.  `emptyB` is the
`empty` sentinel; `rawB` covers an arbitrary value written into the slot
(possible in Python, never done by the claims). -/
inductive Backing where
  | emptyB
  | settingsB (s : SettingsState)
  | holderB (ds : PyMod) (h : HolderState)
  | rawB (v : PyVal)

/-- The state of a `LazySettings` proxy.  In Python both the `_wrapped` slot
and the cached attribute values live in the instance `__dict__`; the model
keeps the slot in `wrapped` and the remaining `__dict__` entries (the local
cache of resolved names) in `cache`. -/
structure ProxyState where
  wrapped : Backing
  cache : List (String × PyVal)

/-- A freshly created proxy (`LazyObject.__init__` sets `_wrapped = empty`). -/
def initialProxy : ProxyState :=
  { wrapped := .emptyB, cache := [] }

/-- The Misconfiguration message built by `LazySettings._setup`; `name` is
its parameter (`Option.none` models the `None` default, and an empty string
is falsy in the `if name` test). -/
def setupMsg (name : Option String) : String :=
  "Requested " ++
    (match name with
     | some n => if !(n == "") then "setting " ++ n else "settings"
     | Option.none => "settings") ++
  ", but settings are not configured. You must either define the environment variable SKULD_SETTINGS_MODULE or call settings.configure() before accessing settings."

/-- `getattr` on the active backing object (never consulted while the slot
is `empty`: the callers guard on that; `rawB` values expose no option
attributes). -/
def wrappedGet (w : Backing) (name : String) : Except Err PyVal :=
  match w with
  | .emptyB => .error .attrError
  | .settingsB s => sgetattr s name
  | .holderB ds h => hget ds h name
  | .rawB _ => .error .attrError

/-- `LazySettings.__getattr__` combined with the attribute protocol: a name
already in the instance `__dict__` (the cache) is returned without invoking
`__getattr__`; otherwise, if `_wrapped` is `empty`, `_setup(name)` runs
(raising Misconfiguration when the selector is unset or empty, else building
`Settings` — whose own errors propagate with the slot still `empty` —  and
binding it, which clears the cache via `__setattr__('_wrapped', ...)`); then
the value is fetched from the backing object and stored directly in
`__dict__` (bypassing `__setattr__`).  Returns the read's outcome together
with the post-state. -/
def proxyGetattr (env : Option String) (imports : String → Option PyMod)
    (gs : PyMod) (hasTzset : Bool) (p : ProxyState) (name : String) :
    Except Err PyVal × ProxyState :=
  match dlookup p.cache name with
  | some v => (.ok v, p)
  | Option.none =>
    match p.wrapped with
    | .emptyB =>
      if envTruthy env then
        match settingsInit gs hasTzset imports (env.getD "") with
        | .error e => (.error e, p)
        | .ok s =>
          let p1 : ProxyState := { wrapped := .settingsB s, cache := [] }
          match sgetattr s name with
          | .error e => (.error e, p1)
          | .ok v => (.ok v, { p1 with cache := dinsert p1.cache name v })
      else (.error (.improperly (setupMsg (some name))), p)
    | w =>
      match wrappedGet w name with
      | .error e => (.error e, p)
      | .ok v => (.ok v, { p with cache := dinsert p.cache name v })

/-- `LazySettings.__setattr__` for an ordinary write of a value.  From the
source: the written name alone is popped from the cache (the whole cache is
cleared only when the name is the `_wrapped` slot itself).  The subsequent
`super().__setattr__` is the base class's delegation, modelled from the
spec: LazyObject is not under src/ — per spec 4.3, a slot write stores the
backing object directly, any other write is forwarded to the backing object
(auto-resolving first when still unconfigured, which on success re-binds and
so empties the cache). -/
def proxySetattr (env : Option String) (imports : String → Option PyMod)
    (gs : PyMod) (hasTzset : Bool) (p : ProxyState) (name : String)
    (v : PyVal) : Except Err Unit × ProxyState :=
  if name = "_wrapped" then
    (.ok (), { wrapped := .rawB v, cache := [] })
  else
    let cache' := dremoveKey p.cache name
    match p.wrapped with
    | .emptyB =>
      if envTruthy env then
        match settingsInit gs hasTzset imports (env.getD "") with
        | .error e => (.error e, { p with cache := cache' })
        | .ok s =>
          (.ok (), { wrapped := .settingsB (ssetattr s name v), cache := [] })
      else (.error (.improperly (setupMsg Option.none)), { p with cache := cache' })
    | .settingsB s =>
      (.ok (), { wrapped := .settingsB (ssetattr s name v), cache := cache' })
    | .holderB ds h =>
      (.ok (), { wrapped := .holderB ds (hset h name v), cache := cache' })
    | .rawB w =>
      (.error .attrError, { wrapped := .rawB w, cache := cache' })

/-- Binding the `_wrapped` slot to a backing object from inside `_setup` or
`configure`: `LazySettings.__setattr__('_wrapped', ...)` clears the whole
`__dict__` and stores the slot. -/
def proxyBind (b : Backing) : ProxyState :=
  { wrapped := b, cache := [] }

/-- `LazySettings.configure(default_settings, **options)`: fail with
RuntimeError if already bound; else build a `SettingsHolder` on the provider,
apply each override through its `__setattr__`, and bind it. -/
def configure (p : ProxyState) (ds : PyMod) (options : List (String × PyVal)) :
    Except Err Unit × ProxyState :=
  match p.wrapped with
  | .emptyB =>
    let h := options.foldl (fun h nv => hset h nv.1 nv.2) holderInit
    (.ok (), proxyBind (.holderB ds h))
  | _ => (.error (.runtimeError "Settings already configured."), p)

/-- `LazySettings.configured`: `_wrapped is not empty`. -/
def configured (p : ProxyState) : Bool :=
  match p.wrapped with
  | .emptyB => false
  | _ => true

/-! ### Lemmas about the dict and set primitives -/

theorem dlookup_dinsert_self (l : List (String × PyVal)) (k : String) (v : PyVal) :
    dlookup (dinsert l k v) k = some v := by
  induction l with
  | nil => simp [dinsert, dlookup]
  | cons hd t ih =>
    obtain ⟨k', v'⟩ := hd
    by_cases hk : k' = k
    · subst hk; simp [dinsert, dlookup]
    · simp [dinsert, dlookup, hk, ih]

theorem dlookup_eq_none_of_not_mem_keys (l : List (String × PyVal)) (k : String)
    (h : k ∉ l.map Prod.fst) : dlookup l k = Option.none := by
  induction l with
  | nil => simp [dlookup]
  | cons hd t ih =>
    obtain ⟨k', v'⟩ := hd
    simp only [List.map_cons, List.mem_cons] at h
    push_neg at h
    have hk : k' ≠ k := fun hh => h.1 hh.symm
    simp only [dlookup, if_neg hk]
    exact ih h.2

theorem dlookup_dinsert_ne (l : List (String × PyVal)) (k m : String) (v : PyVal)
    (h : m ≠ k) : dlookup (dinsert l k v) m = dlookup l m := by
  induction l with
  | nil =>
    have hk : k ≠ m := fun hh => h hh.symm
    simp [dinsert, dlookup, if_neg hk]
  | cons hd t ih =>
    obtain ⟨k', v'⟩ := hd
    by_cases hk : k' = k
    · subst hk
      have hkm : k' ≠ m := fun hh => h hh.symm
      simp [dinsert, dlookup, if_neg hkm]
    · simp only [dinsert, if_neg hk, dlookup]
      by_cases hm : k' = m
      · simp [hm]
      · simp [hm, ih]

theorem dlookup_dremoveKey_ne (l : List (String × PyVal)) (k m : String)
    (h : m ≠ k) : dlookup (dremoveKey l k) m = dlookup l m := by
  induction l with
  | nil => simp [dremoveKey]
  | cons hd t ih =>
    obtain ⟨k', v'⟩ := hd
    by_cases hk : k' = k
    · subst hk
      have hkm : k' ≠ m := fun hh => h hh.symm
      simp [dremoveKey, dlookup, if_neg hkm]
    · simp only [dremoveKey, if_neg hk, dlookup]
      by_cases hm : k' = m
      · simp [hm]
      · simp [hm, ih]

theorem dlookup_dremoveKey_self (l : List (String × PyVal)) (k : String)
    (h : (l.map Prod.fst).Nodup) : dlookup (dremoveKey l k) k = Option.none := by
  induction l with
  | nil => simp [dremoveKey, dlookup]
  | cons hd t ih =>
    obtain ⟨k', v'⟩ := hd
    simp only [List.map_cons, List.nodup_cons] at h
    by_cases hk : k' = k
    · subst hk
      simp only [dremoveKey, if_pos rfl]
      exact dlookup_eq_none_of_not_mem_keys t k' h.1
    · simp only [dremoveKey, if_neg hk, dlookup, if_neg hk]
      exact ih h.2

theorem keys_dinsert (l : List (String × PyVal)) (k : String) (v : PyVal) :
    ((dinsert l k v).map Prod.fst) =
      if k ∈ l.map Prod.fst then l.map Prod.fst else l.map Prod.fst ++ [k] := by
  induction l with
  | nil => simp [dinsert]
  | cons hd t ih =>
    obtain ⟨k', v'⟩ := hd
    by_cases hk : k' = k
    · subst hk; simp [dinsert]
    · simp only [dinsert, if_neg hk, List.map_cons, List.mem_cons]
      have hkk : ¬ k = k' := fun hh => hk hh.symm
      by_cases hmem : k ∈ t.map Prod.fst
      · simp [ih, hmem, hkk]
      · simp [ih, hmem, hkk]

theorem nodup_keys_dinsert (l : List (String × PyVal)) (k : String) (v : PyVal)
    (h : (l.map Prod.fst).Nodup) : ((dinsert l k v).map Prod.fst).Nodup := by
  rw [keys_dinsert]
  by_cases hmem : k ∈ l.map Prod.fst
  · simpa [hmem]
  · rw [if_neg hmem]
    rw [List.nodup_append]
    exact ⟨h, List.nodup_singleton k, by simp [List.disjoint_singleton, hmem]⟩

theorem keys_dremoveKey_sublist (l : List (String × PyVal)) (k : String) :
    ((dremoveKey l k).map Prod.fst).Sublist (l.map Prod.fst) := by
  induction l with
  | nil => simp [dremoveKey]
  | cons hd t ih =>
    obtain ⟨k', v'⟩ := hd
    by_cases hk : k' = k
    · subst hk
      simp only [dremoveKey, if_pos rfl, List.map_cons]
      exact (List.sublist_cons_self _ _)
    · simp only [dremoveKey, if_neg hk, List.map_cons]
      exact ih.cons₂ k'

theorem nodup_keys_dremoveKey (l : List (String × PyVal)) (k : String)
    (h : (l.map Prod.fst).Nodup) : ((dremoveKey l k).map Prod.fst).Nodup :=
  (keys_dremoveKey_sublist l k).nodup h

theorem mem_sinsert (s : List String) (x y : String) :
    y ∈ sinsert s x ↔ y = x ∨ y ∈ s := by
  by_cases h : x ∈ s
  · simp only [sinsert, if_pos h]
    constructor
    · exact Or.inr
    · rintro (rfl | hy)
      · exact h
      · exact hy
  · simp [sinsert, if_neg h]

theorem mem_sdiscard (s : List String) (x y : String) :
    y ∈ sdiscard s x ↔ y ∈ s ∧ y ≠ x := by
  simp [sdiscard]

/-! ### Concrete fixtures used by witnesses and counterexamples -/

/-- A sample default catalog: empty `SECRET_KEY` default, a `TIME_ZONE`, an
option `X`, and a lower-case module-level helper that must be ignored. -/
def gsDefault : PyMod :=
  ⟨[("DEBUG", PyVal.bool false), ("INSTALLED_APPS", PyVal.list []),
    ("SECRET_KEY", PyVal.str ""), ("TIME_ZONE", PyVal.str "UTC"),
    ("X", PyVal.int 0), ("helper_fn", PyVal.internalObj)]⟩

/-- A well-formed override module. -/
def modGood : PyMod :=
  ⟨[("DEBUG", PyVal.bool true), ("SECRET_KEY", PyVal.str "s3cret"),
    ("__name__", PyVal.str "myconf")]⟩

/-- A module registry resolving only `"myconf"`. -/
def impGood : String → Option PyMod :=
  fun s => if s = "myconf" then some modGood else Option.none

/-- An empty module registry (no module importable). -/
def impNone : String → Option PyMod := fun _ => Option.none

/-- A provider with two options, for proxy-cache scenarios. -/
def dsAB : PyMod := ⟨[("A", PyVal.int 1), ("B", PyVal.int 2)]⟩

/-- The empty module. -/
def emptyMod : PyMod := ⟨[]⟩

/-! ### Claim theorems -/

/-- C10: when the environment selector is set to the empty string, the first
proxy attribute access fails with exactly the Misconfiguration raised for an
unset selector (any falsy value is treated as unset), leaving the proxy
unconfigured; the outcome does not depend on the module registry, so no
module import for the empty-string name is attempted. -/
theorem empty_env_selector_misconfigured (gs : PyMod) (tz : Bool) (name : String)
    (imports imports2 : String → Option PyMod) :
    proxyGetattr (some "") imports gs tz initialProxy name
      = (.error (.improperly (setupMsg (some name))), initialProxy) ∧
    proxyGetattr (some "") imports gs tz initialProxy name
      = proxyGetattr Option.none imports2 gs tz initialProxy name :=
  ⟨rfl, rfl⟩

/-- C7: on a holder whose default provider defines `X`, `set("X", 1)`
followed by `delete("X")` makes `get("X")` fail with AttributeError (the
deletion shadows the provider's default), and a subsequent `set("X", 2)`
makes `get("X")` return `2` again. -/
theorem holder_delete_shadows_default (ds : PyMod) (d : PyVal)
    (hdef : dlookup ds.attrs "X" = some d) :
    hget ds (hdelete (hset holderInit "X" (PyVal.int 1)) "X").2 "X"
      = .error .attrError ∧
    hget ds (hset (hdelete (hset holderInit "X" (PyVal.int 1)) "X").2
              "X" (PyVal.int 2)) "X"
      = .ok (PyVal.int 2) :=
  ⟨rfl, rfl⟩

/-- Witness for C7 at a concrete provider defining `X = 0`. -/
theorem holder_delete_shadows_default_witness :
    dlookup gsDefault.attrs "X" = some (PyVal.int 0) ∧
    (hget gsDefault (hdelete (hset holderInit "X" (PyVal.int 1)) "X").2 "X"
       = .error .attrError ∧
     hget gsDefault (hset (hdelete (hset holderInit "X" (PyVal.int 1)) "X").2
              "X" (PyVal.int 2)) "X"
       = .ok (PyVal.int 2)) :=
  ⟨rfl, holder_delete_shadows_default gsDefault (PyVal.int 0) rfl⟩

/-- A module defining `APPS` (an upper-case name that is *not*
`INSTALLED_APPS` but is a substring of it) as a set, plus a valid secret. -/
def modAPPS : PyMod :=
  ⟨[("APPS", PyVal.pset [PyVal.str "a", PyVal.str "b"]),
    ("SECRET_KEY", PyVal.str "k")]⟩

/-- A registry resolving only `"badmod"` to `modAPPS`. -/
def impAPPS : String → Option PyMod :=
  fun s => if s = "badmod" then some modAPPS else Option.none


/-- C3 (code bug): because `tuple_settings = ('INSTALLED_APPS')` is a
string, `setting in tuple_settings` is a substring test, so construction
from a module defining `APPS` (≠ `INSTALLED_APPS`) as a set fails with
Misconfiguration naming `APPS` — the shape validation is *not* applied only
to `INSTALLED_APPS` as the claim states. -/
theorem tuple_check_applies_to_substrings :
    settingsInit gsDefault true impAPPS "badmod"
      = .error (.improperly "The APPS setting must be a list or a tuple.") ∧
    pyStrIn "APPS" tuple_settings = true ∧ "APPS" ≠ "INSTALLED_APPS" :=
  ⟨rfl, rfl, by decide⟩

/-- The proxy state reached by: configure with provider `dsAB`, read `A`,
read `B` (both now cached), then write `A`. -/
def proxyAfterWriteA : ProxyState :=
  (proxySetattr Option.none impNone emptyMod false
    ((proxyGetattr Option.none impNone emptyMod false
      ((proxyGetattr Option.none impNone emptyMod false
        ((configure initialProxy dsAB []).2) "A").2) "B").2)
    "A" (PyVal.int 7)).2

/-- C2 counterexample: after caching `A` and `B` and then writing `A`, the
cached value of `B` is still present — an attribute write does *not* clear
the proxy's entire local cache. -/
theorem proxy_write_keeps_other_cached_name_cex :
    dlookup proxyAfterWriteA.cache "B" = some (PyVal.int 2) ∧
    proxyAfterWriteA.cache.map Prod.fst = ["B"] :=
  ⟨rfl, rfl⟩

/-- C2 amended: while the proxy is bound, an attribute write to a name other
than the `_wrapped` slot evicts only that name from the local cache — every
other cached name keeps its value; the entire cache is cleared only when the
`_wrapped` slot itself is (re)assigned. -/
theorem proxy_setattr_evicts_only_written_name (env : Option String)
    (imports : String → Option PyMod) (gs : PyMod) (tz : Bool)
    (p : ProxyState) (name : String) (v : PyVal)
    (hn : name ≠ "_wrapped") (hc : configured p = true) :
    (proxySetattr env imports gs tz p name v).2.cache = dremoveKey p.cache name ∧
    (∀ m, m ≠ name →
       dlookup (proxySetattr env imports gs tz p name v).2.cache m
         = dlookup p.cache m) ∧
    (∀ b, (proxyBind b).cache = []) := by
  obtain ⟨w, c⟩ := p
  cases w with
  | emptyB => simp [configured] at hc
  | settingsB s =>
    refine ⟨by simp [proxySetattr, hn], ?_, fun b => rfl⟩
    intro m hm
    simp only [proxySetattr, if_neg hn]
    exact dlookup_dremoveKey_ne _ _ _ hm
  | holderB ds h =>
    refine ⟨by simp [proxySetattr, hn], ?_, fun b => rfl⟩
    intro m hm
    simp only [proxySetattr, if_neg hn]
    exact dlookup_dremoveKey_ne _ _ _ hm
  | rawB w =>
    refine ⟨by simp [proxySetattr, hn], ?_, fun b => rfl⟩
    intro m hm
    simp only [proxySetattr, if_neg hn]
    exact dlookup_dremoveKey_ne _ _ _ hm

/-- Witness for the amended C2 at a bound proxy with two cached names. -/
theorem proxy_setattr_evicts_only_written_name_witness :
    ("A" : String) ≠ "_wrapped" ∧
    configured ⟨.holderB dsAB holderInit,
                [("A", PyVal.int 1), ("B", PyVal.int 2)]⟩ = true ∧
    ((proxySetattr Option.none impNone emptyMod false
        ⟨.holderB dsAB holderInit, [("A", PyVal.int 1), ("B", PyVal.int 2)]⟩
        "A" (PyVal.int 7)).2.cache
       = dremoveKey [("A", PyVal.int 1), ("B", PyVal.int 2)] "A" ∧
     (∀ m, m ≠ "A" →
        dlookup (proxySetattr Option.none impNone emptyMod false
          ⟨.holderB dsAB holderInit, [("A", PyVal.int 1), ("B", PyVal.int 2)]⟩
          "A" (PyVal.int 7)).2.cache m
          = dlookup [("A", PyVal.int 1), ("B", PyVal.int 2)] m) ∧
     (∀ b, (proxyBind b).cache = [])) :=
  ⟨by decide, rfl,
   proxy_setattr_evicts_only_written_name Option.none impNone emptyMod false
     ⟨.holderB dsAB holderInit, [("A", PyVal.int 1), ("B", PyVal.int 2)]⟩
     "A" (PyVal.int 7) (by decide) rfl⟩

/-- C6: `configure(defaults, FOO="bar")` on an unconfigured proxy succeeds;
afterwards reading `FOO` yields `"bar"`, `configured` is true, and any
further `configure` call fails with the already-configured RuntimeError and
leaves the binding unchanged. -/
theorem configure_binds_and_rejects_reconfigure (env : Option String)
    (imports : String → Option PyMod) (gs ds : PyMod) (tz : Bool)
    (p : ProxyState) (hp : p.wrapped = .emptyB) :
    (configure p ds [("FOO", PyVal.str "bar")]).1 = .ok () ∧
    (proxyGetattr env imports gs tz
        (configure p ds [("FOO", PyVal.str "bar")]).2 "FOO").1
      = .ok (PyVal.str "bar") ∧
    configured (configure p ds [("FOO", PyVal.str "bar")]).2 = true ∧
    (∀ (ds2 : PyMod) (opts : List (String × PyVal)),
       configure (configure p ds [("FOO", PyVal.str "bar")]).2 ds2 opts
         = (.error (.runtimeError "Settings already configured."),
            (configure p ds [("FOO", PyVal.str "bar")]).2)) := by
  obtain ⟨w, c⟩ := p
  cases hp
  exact ⟨rfl, rfl, rfl, fun ds2 opts => rfl⟩

/-- Witness for C6 at a fresh proxy and a concrete provider. -/
theorem configure_binds_and_rejects_reconfigure_witness :
    initialProxy.wrapped = .emptyB ∧
    ((configure initialProxy dsAB [("FOO", PyVal.str "bar")]).1 = .ok () ∧
     (proxyGetattr Option.none impNone emptyMod false
         (configure initialProxy dsAB [("FOO", PyVal.str "bar")]).2 "FOO").1
       = .ok (PyVal.str "bar") ∧
     configured (configure initialProxy dsAB [("FOO", PyVal.str "bar")]).2 = true ∧
     (∀ (ds2 : PyMod) (opts : List (String × PyVal)),
        configure (configure initialProxy dsAB [("FOO", PyVal.str "bar")]).2 ds2 opts
          = (.error (.runtimeError "Settings already configured."),
             (configure initialProxy dsAB [("FOO", PyVal.str "bar")]).2))) :=
  ⟨rfl, configure_binds_and_rejects_reconfigure Option.none impNone emptyMod
          dsAB false initialProxy rfl⟩

/-- An externally observable mutation on an Override Holder: an attribute
set or an attribute delete. -/
inductive HOp where
  | setO (n : String) (v : PyVal)
  | delO (n : String)

/-- Apply one operation to a holder state (the delete's possible
AttributeError does not change its state effect). -/
def applyOp (h : HolderState) : HOp → HolderState
  | .setO n v => hset h n v
  | .delO n => (hdelete h n).2

/-- Run a sequence of set/delete operations on a freshly constructed
holder. -/
def runOps (ops : List HOp) : HolderState :=
  ops.foldl applyOp holderInit

/-- The mutual-exclusion invariant together with the key-uniqueness of the
instance `__dict__` that backs it. -/
def HolderInv (h : HolderState) : Prop :=
  (h.dict.map Prod.fst).Nodup ∧
  ∀ n, n ∈ h.deleted → dlookup h.dict n = Option.none

theorem holderInv_init : HolderInv holderInit := by
  constructor
  · decide
  · intro n hn
    simp [holderInit] at hn

theorem hdelete_state (h : HolderState) (n : String) :
    (hdelete h n).2
      = { deleted := sinsert h.deleted n, dict := dremoveKey h.dict n } := by
  rw [hdelete]
  split
  · rfl
  · split <;> rfl

theorem holderInv_applyOp (h : HolderState) (op : HOp) (hh : HolderInv h) :
    HolderInv (applyOp h op) := by
  obtain ⟨hnd, hexcl⟩ := hh
  cases op with
  | setO n v =>
    simp only [applyOp, hset]
    refine ⟨nodup_keys_dinsert _ _ _ hnd, ?_⟩
    intro m hm
    rw [mem_sdiscard] at hm
    rw [dlookup_dinsert_ne _ _ _ _ hm.2]
    exact hexcl m hm.1
  | delO n =>
    simp only [applyOp, hdelete_state]
    refine ⟨nodup_keys_dremoveKey _ _ hnd, ?_⟩
    intro m hm
    rw [mem_sinsert] at hm
    rcases hm with rfl | hm
    · exact dlookup_dremoveKey_self _ _ hnd
    · by_cases hmn : m = n
      · subst hmn; exact dlookup_dremoveKey_self _ _ hnd
      · rw [dlookup_dremoveKey_ne _ _ _ hmn]
        exact hexcl m hm

theorem holderInv_runOps (ops : List HOp) : HolderInv (runOps ops) := by
  suffices hgen : ∀ (l : List HOp) (h : HolderState),
      HolderInv h → HolderInv (l.foldl applyOp h) by
    exact hgen ops holderInit holderInv_init
  intro l
  induction l with
  | nil => intro h hh; exact hh
  | cons op t ih =>
    intro h hh
    exact ih (applyOp h op) (holderInv_applyOp h op hh)

/-- C9: after any sequence of set/delete operations on a holder, no name is
simultaneously in the deletion set and stored as an explicitly set value in
the instance `__dict__`. -/
theorem holder_set_delete_exclusive (ops : List HOp) (name : String) :
    ¬(name ∈ (runOps ops).deleted ∧
      (dlookup (runOps ops).dict name).isSome = true) := by
  rintro ⟨hdel, hsome⟩
  rw [(holderInv_runOps ops).2 name hdel] at hsome
  simp at hsome

theorem charListLe_total : ∀ a b : List Char, charListLe a b = true ∨ charListLe b a = true
  | [], _ => Or.inl rfl
  | _ :: _, [] => Or.inr rfl
  | c :: cs, d :: ds => by
    by_cases h : c.toNat = d.toNat
    · rcases charListLe_total cs ds with hl | hr
      · exact Or.inl (by simp [charListLe, h, hl])
      · exact Or.inr (by simp [charListLe, h.symm, hr])
    · rcases Nat.lt_or_ge c.toNat d.toNat with hlt | hge
      · exact Or.inl (by simp [charListLe, h, hlt])
      · have hne : d.toNat ≠ c.toNat := fun hh => h hh.symm
        have hgt : d.toNat < c.toNat := lt_of_le_of_ne hge hne
        exact Or.inr (by simp [charListLe, hne, hgt])

theorem charListLe_trans : ∀ a b c : List Char,
    charListLe a b = true → charListLe b c = true → charListLe a c = true
  | [], _, _, _, _ => rfl
  | _ :: _, [], _, h1, _ => by simp [charListLe] at h1
  | _ :: _, _ :: _, [], _, h2 => by simp [charListLe] at h2
  | x :: xs, y :: ys, z :: zs, h1, h2 => by
    by_cases hxy : x.toNat = y.toNat
    · by_cases hyz : y.toNat = z.toNat
      · rw [charListLe, if_pos hxy] at h1
        rw [charListLe, if_pos hyz] at h2
        rw [charListLe, if_pos (hxy.trans hyz)]
        exact charListLe_trans xs ys zs h1 h2
      · rw [charListLe, if_neg hyz] at h2
        have hlt : y.toNat < z.toNat := by simpa using h2
        have hxz : x.toNat < z.toNat := hxy ▸ hlt
        rw [charListLe, if_neg (Nat.ne_of_lt hxz)]
        simpa using hxz
    · rw [charListLe, if_neg hxy] at h1
      have hlt1 : x.toNat < y.toNat := by simpa using h1
      by_cases hyz : y.toNat = z.toNat
      · have hxz : x.toNat < z.toNat := hyz ▸ hlt1
        rw [charListLe, if_neg (Nat.ne_of_lt hxz)]
        simpa using hxz
      · rw [charListLe, if_neg hyz] at h2
        have hlt2 : y.toNat < z.toNat := by simpa using h2
        have hxz : x.toNat < z.toNat := hlt1.trans hlt2
        rw [charListLe, if_neg (Nat.ne_of_lt hxz)]
        simpa using hxz

instance : IsTotal String (fun a b => strLe a b = true) :=
  ⟨fun a b => charListLe_total a.data b.data⟩

instance : IsTrans String (fun a b => strLe a b = true) :=
  ⟨fun a b c => charListLe_trans a.data b.data c.data⟩

/-- C8 counterexample: on a holder whose provider defines `X` and where `X`
was also explicitly set, `__dir__` lists `X` twice (the source sorts a
concatenation without deduplicating), and the internal, non-upper-case
`__dict__` entry `_deleted` is listed as well — so the enumeration is
neither duplicate-free nor restricted to configuration names. -/
theorem holder_dir_lists_duplicates_cex :
    List.count "X" (hdir ⟨[("X", PyVal.int 0)]⟩ (hset holderInit "X" (PyVal.int 1))) = 2 ∧
    "_deleted" ∈ hdir ⟨[("X", PyVal.int 0)]⟩ (hset holderInit "X" (PyVal.int 1)) ∧
    pyIsUpper "_deleted" = false :=
  ⟨rfl, by decide, rfl⟩

/-- C8 amended: `__dir__` returns, in sorted order, exactly the names in the
union of the instance `__dict__` keys (which include the internal entries)
and the provider's names, minus the deletion set; each surviving name occurs
once per source that defines it (so twice when both the `__dict__` and the
provider define it). -/
theorem holder_dir_sorted_union_minus_deleted (ds : PyMod) (h : HolderState)
    (name : String) :
    (name ∈ hdir ds h ↔
       (name ∈ h.dict.map Prod.fst ∨ name ∈ pdir ds) ∧ name ∉ h.deleted) ∧
    List.Sorted (fun a b => strLe a b = true) (hdir ds h) ∧
    List.count name (hdir ds h) =
      (if name ∈ h.deleted then 0
       else List.count name (h.dict.map Prod.fst) + List.count name (pdir ds)) := by
  refine ⟨?_, ?_, ?_⟩
  · unfold hdir pySorted
    rw [List.mem_insertionSort]
    simp only [List.mem_filter, List.mem_append, decide_eq_true_eq]
  · exact List.sorted_insertionSort _ _
  · unfold hdir pySorted
    rw [(List.perm_insertionSort _ _).count_eq]
    by_cases hdel : name ∈ h.deleted
    · rw [if_pos hdel, List.count_eq_zero]
      simp [List.mem_filter, hdel]
    · rw [if_neg hdel, List.count_filter (by simpa using hdel), List.count_append]

theorem foldl_copy_lookup (gs : PyMod) (name : String) :
    ∀ (l : List String) (acc : List (String × PyVal)),
      dlookup (l.foldl (fun a n => if pyIsUpper n then dinsert a n (pget gs n) else a) acc) name
        = if name ∈ l ∧ pyIsUpper name = true then some (pget gs name)
          else dlookup acc name := by
  intro l
  induction l with
  | nil => intro acc; simp
  | cons hd t ih =>
    intro acc
    simp only [List.foldl_cons]
    by_cases hu : pyIsUpper hd = true
    · rw [if_pos hu, ih]
      by_cases hn : name = hd
      · subst hn
        by_cases hmem : name ∈ t
        · rw [if_pos ⟨hmem, hu⟩, if_pos ⟨List.mem_cons_self name t, hu⟩]
        · rw [if_neg (fun hh => hmem hh.1), if_pos ⟨List.mem_cons_self name t, hu⟩,
              dlookup_dinsert_self]
      · rw [dlookup_dinsert_ne _ _ _ _ hn]
        by_cases hmem : name ∈ t ∧ pyIsUpper name = true
        · rw [if_pos hmem, if_pos ⟨List.mem_cons_of_mem hd hmem.1, hmem.2⟩]
        · rw [if_neg hmem, if_neg (fun hh => hmem ⟨(List.mem_cons.mp hh.1).resolve_left hn, hh.2⟩)]
    · rw [if_neg hu, ih]
      by_cases hn : name = hd
      · subst hn
        have hnu : ¬(name ∈ t ∧ pyIsUpper name = true) := fun hh => hu hh.2
        rw [if_neg hnu, if_neg (fun hh => hu hh.2)]
      · by_cases hmem : name ∈ t ∧ pyIsUpper name = true
        · rw [if_pos hmem, if_pos ⟨List.mem_cons_of_mem hd hmem.1, hmem.2⟩]
        · rw [if_neg hmem, if_neg (fun hh => hmem ⟨(List.mem_cons.mp hh.1).resolve_left hn, hh.2⟩)]

theorem baseCopy_lookup (gs : PyMod) (name : String) :
    dlookup (baseCopy gs) name
      = if name ∈ pdir gs ∧ pyIsUpper name = true then some (pget gs name)
        else Option.none := by
  unfold baseCopy
  rw [foldl_copy_lookup]
  rfl

theorem overlay_ok_lookup (mod : PyMod) :
    ∀ (ns : List String) (st st' : SettingsState),
      overlay mod ns st = .ok st' →
      (∀ name, dlookup st'.attrs name
         = if name ∈ ns ∧ pyIsUpper name = true then some (pget mod name)
           else dlookup st.attrs name) ∧
      (∀ name, name ∈ st'.explicitS ↔
         name ∈ st.explicitS ∨ (name ∈ ns ∧ pyIsUpper name = true)) := by
  intro ns
  induction ns with
  | nil =>
    intro st st' h
    simp only [overlay] at h
    cases h
    constructor
    · intro name; simp
    · intro name; simp
  | cons n t ih =>
    intro st st' h
    simp only [overlay] at h
    by_cases hu : pyIsUpper n = true
    · rw [if_pos hu] at h
      by_cases hbad : (pyStrIn n tuple_settings && !isListOrTuple (pget mod n)) = true
      · rw [if_pos hbad] at h
        cases h
      · rw [if_neg hbad] at h
        obtain ⟨ha, he⟩ := ih _ _ h
        constructor
        · intro name
          rw [ha name]
          by_cases hnt : name ∈ t ∧ pyIsUpper name = true
          · rw [if_pos hnt, if_pos ⟨List.mem_cons_of_mem n hnt.1, hnt.2⟩]
          · rw [if_neg hnt]
            by_cases hn : name = n
            · subst hn
              rw [dlookup_dinsert_self, if_pos ⟨List.mem_cons_self name t, hu⟩]
            · rw [dlookup_dinsert_ne _ _ _ _ hn,
                  if_neg (fun hh => hnt ⟨(List.mem_cons.mp hh.1).resolve_left hn, hh.2⟩)]
        · intro name
          rw [he name, mem_sinsert]
          constructor
          · rintro ((rfl | hmem) | ⟨hmt, hup⟩)
            · exact Or.inr ⟨List.mem_cons_self name t, hu⟩
            · exact Or.inl hmem
            · exact Or.inr ⟨List.mem_cons_of_mem n hmt, hup⟩
          · rintro (hmem | ⟨hmem, hup⟩)
            · exact Or.inl (Or.inr hmem)
            · rcases List.mem_cons.mp hmem with rfl | hmt
              · exact Or.inl (Or.inl rfl)
              · exact Or.inr ⟨hmt, hup⟩
    · rw [if_neg hu] at h
      obtain ⟨ha, he⟩ := ih _ _ h
      constructor
      · intro name
        rw [ha name]
        by_cases hnt : name ∈ t ∧ pyIsUpper name = true
        · rw [if_pos hnt, if_pos ⟨List.mem_cons_of_mem n hnt.1, hnt.2⟩]
        · rw [if_neg hnt]
          by_cases hn : name = n
          · subst hn
            rw [if_neg (fun hh => hu hh.2)]
          · rw [if_neg (fun hh => hnt ⟨(List.mem_cons.mp hh.1).resolve_left hn, hh.2⟩)]
      · intro name
        rw [he name]
        constructor
        · rintro (hmem | hmem)
          · exact Or.inl hmem
          · exact Or.inr ⟨List.mem_cons_of_mem n hmem.1, hmem.2⟩
        · rintro (hmem | hmem)
          · exact Or.inl hmem
          · rcases List.mem_cons.mp hmem.1 with rfl | hmt
            · exact absurd hmem.2 hu
            · exact Or.inr ⟨hmt, hmem.2⟩

theorem secretAndTzCheck_ok_eq (tz : Bool) (st s : SettingsState)
    (h : secretAndTzCheck tz st = .ok s) : s = st := by
  unfold secretAndTzCheck at h
  split at h
  · cases h
  · split at h
    · cases h
    · split at h
      · split at h
        · cases h
        · cases h; rfl
      · cases h; rfl

theorem settingsInit_unfold (gs : PyMod) (tz : Bool)
    (imports : String → Option PyMod) (m : String) (mod : PyMod)
    (himp : imports m = some mod) :
    settingsInit gs tz imports m
      = match overlay mod (pdir mod)
          { attrs := dinsert (baseCopy gs) "SETTINGS_MODULE" (PyVal.str m),
            explicitS := [] } with
        | .error e => .error e
        | .ok st => secretAndTzCheck tz st := by
  unfold settingsInit
  rw [himp]

theorem settingsInit_ok_overlay (gs : PyMod) (tz : Bool)
    (imports : String → Option PyMod) (m : String) (mod : PyMod)
    (s : SettingsState) (himp : imports m = some mod)
    (h : settingsInit gs tz imports m = .ok s) :
    overlay mod (pdir mod)
      { attrs := dinsert (baseCopy gs) "SETTINGS_MODULE" (PyVal.str m),
        explicitS := [] } = .ok s := by
  rw [settingsInit_unfold gs tz imports m mod himp] at h
  cases hov : overlay mod (pdir mod)
      { attrs := dinsert (baseCopy gs) "SETTINGS_MODULE" (PyVal.str m),
        explicitS := [] } with
  | error e => rw [hov] at h; cases h
  | ok st =>
    rw [hov] at h
    have h2 : secretAndTzCheck tz st = .ok s := h
    have hs : s = st := secretAndTzCheck_ok_eq tz st s h2
    rw [hs]

/-- C1: for a successfully constructed `Settings`, every upper-case catalog
name not defined on the override module resolves to the catalog's value with
`is_overridden` false, and every upper-case name defined on the module
resolves to the module's value with `is_overridden` true.  (The catalog is
assumed not to define `SETTINGS_MODULE`, which `__init__` reserves for the
module path.) -/
theorem settings_overlay_correct (gs mod : PyMod) (tz : Bool)
    (imports : String → Option PyMod) (m : String) (s : SettingsState)
    (himp : imports m = some mod)
    (hok : settingsInit gs tz imports m = .ok s)
    (hsm : "SETTINGS_MODULE" ∉ pdir gs) :
    (∀ name, pyIsUpper name = true → name ∈ pdir gs → name ∉ pdir mod →
       sgetattr s name = .ok (pget gs name) ∧ s_is_overridden s name = false) ∧
    (∀ name, pyIsUpper name = true → name ∈ pdir mod →
       sgetattr s name = .ok (pget mod name) ∧ s_is_overridden s name = true) := by
  have hov := settingsInit_ok_overlay gs tz imports m mod s himp hok
  obtain ⟨ha, he⟩ := overlay_ok_lookup mod (pdir mod) _ s hov
  constructor
  · intro name hu hgs hmod
    have h1 : dlookup s.attrs name
        = dlookup (dinsert (baseCopy gs) "SETTINGS_MODULE" (PyVal.str m)) name := by
      rw [ha name, if_neg (fun hh => hmod hh.1)]
    have hne : name ≠ "SETTINGS_MODULE" := fun hh => hsm (hh ▸ hgs)
    rw [dlookup_dinsert_ne _ _ _ _ hne, baseCopy_lookup,
        if_pos ⟨hgs, hu⟩] at h1
    have hnot : name ∉ s.explicitS := by
      rw [he name]
      rintro (hc | hc)
      · exact (List.not_mem_nil name) hc
      · exact hmod hc.1
    constructor
    · unfold sgetattr
      rw [h1]
    · simp [s_is_overridden, hnot]
  · intro name hu hmod
    have h1 : dlookup s.attrs name = some (pget mod name) := by
      rw [ha name, if_pos ⟨hmod, hu⟩]
    have hmem : name ∈ s.explicitS := by
      rw [he name]
      exact Or.inr ⟨hmod, hu⟩
    constructor
    · unfold sgetattr
      rw [h1]
    · simp [s_is_overridden, hmem]

/-- A `Settings` state equal to `settingsInit gsDefault true impGood
"myconf"`, spelled out for the C1 witness. -/
def sMyconf : SettingsState :=
  ⟨[("DEBUG", PyVal.bool true), ("INSTALLED_APPS", PyVal.list []),
    ("SECRET_KEY", PyVal.str "s3cret"), ("TIME_ZONE", PyVal.str "UTC"),
    ("X", PyVal.int 0), ("SETTINGS_MODULE", PyVal.str "myconf")],
   ["SECRET_KEY", "DEBUG"]⟩

/-- Witness for C1 at the concrete catalog/module fixtures. -/
theorem settings_overlay_correct_witness :
    impGood "myconf" = some modGood ∧
    settingsInit gsDefault true impGood "myconf" = .ok sMyconf ∧
    "SETTINGS_MODULE" ∉ pdir gsDefault ∧
    ((∀ name, pyIsUpper name = true → name ∈ pdir gsDefault →
        name ∉ pdir modGood →
        sgetattr sMyconf name = .ok (pget gsDefault name) ∧
        s_is_overridden sMyconf name = false) ∧
     (∀ name, pyIsUpper name = true → name ∈ pdir modGood →
        sgetattr sMyconf name = .ok (pget modGood name) ∧
        s_is_overridden sMyconf name = true)) :=
  ⟨rfl, rfl, by decide,
   settings_overlay_correct gsDefault modGood true impGood "myconf" sMyconf
     rfl rfl (by decide)⟩

/-- C4: provided construction reaches the secret check (import and overlay
succeed) and the guarded `TIME_ZONE` read cannot fail, construction fails
with the SECRET_KEY Misconfiguration exactly when the resolved (post-overlay)
`SECRET_KEY` is falsy, and succeeds when it is truthy — so a truthy
module-provided secret over an empty catalog default succeeds, and a falsy
module-provided secret over a non-empty default fails. -/
theorem secret_key_checked_after_overlay (gs mod : PyMod) (tz : Bool)
    (imports : String → Option PyMod) (m : String) (st : SettingsState)
    (sk : PyVal)
    (himp : imports m = some mod)
    (hov : overlay mod (pdir mod)
      { attrs := dinsert (baseCopy gs) "SETTINGS_MODULE" (PyVal.str m),
        explicitS := [] } = .ok st)
    (hsk : dlookup st.attrs "SECRET_KEY" = some sk)
    (htz : tz = false ∨ (dlookup st.attrs "TIME_ZONE").isSome = true) :
    (settingsInit gs tz imports m
        = .error (.improperly "The SECRET_KEY setting must not be empty.")
      ↔ pyTruthy sk = false) ∧
    (pyTruthy sk = true → settingsInit gs tz imports m = .ok st) := by
  have hu2 : settingsInit gs tz imports m = secretAndTzCheck tz st := by
    rw [settingsInit_unfold gs tz imports m mod himp, hov]
  have hdef2 : secretAndTzCheck tz st
      = (if !pyTruthy sk then
           .error (.improperly "The SECRET_KEY setting must not be empty.")
         else if tz then
           (match dlookup st.attrs "TIME_ZONE" with
            | Option.none => .error .attrError
            | some _ => .ok st)
         else .ok st) := by
    unfold secretAndTzCheck
    rw [hsk]
  rw [hu2, hdef2]
  cases htruthy : pyTruthy sk with
  | false => simp
  | true =>
    simp only [Bool.not_true, if_neg (by simp : ¬(false = true))]
    rcases htz with rfl | hsome
    · simp
    · obtain ⟨tzv, htzv⟩ := Option.isSome_iff_exists.mp hsome
      rw [htzv]
      cases tz <;> simp

/-- A catalog whose `SECRET_KEY` default is non-empty. -/
def gsSecret : PyMod :=
  ⟨[("SECRET_KEY", PyVal.str "fallback"), ("TIME_ZONE", PyVal.str "UTC")]⟩

/-- A module overriding `SECRET_KEY` with the empty string. -/
def modEmptySecret : PyMod := ⟨[("SECRET_KEY", PyVal.str "")]⟩

/-- A registry resolving only `"esec"`. -/
def impEmptySecret : String → Option PyMod :=
  fun s => if s = "esec" then some modEmptySecret else Option.none

/-- The overlay result for `gsSecret` and `modEmptySecret`. -/
def stEmptySecret : SettingsState :=
  ⟨[("SECRET_KEY", PyVal.str ""), ("TIME_ZONE", PyVal.str "UTC"),
    ("SETTINGS_MODULE", PyVal.str "esec")], ["SECRET_KEY"]⟩

/-- Witness for C4: an empty module-provided secret makes construction fail
even though the catalog default was non-empty. -/
theorem secret_key_checked_after_overlay_witness :
    impEmptySecret "esec" = some modEmptySecret ∧
    overlay modEmptySecret (pdir modEmptySecret)
      { attrs := dinsert (baseCopy gsSecret) "SETTINGS_MODULE" (PyVal.str "esec"),
        explicitS := [] } = .ok stEmptySecret ∧
    dlookup stEmptySecret.attrs "SECRET_KEY" = some (PyVal.str "") ∧
    ((true = false) ∨ (dlookup stEmptySecret.attrs "TIME_ZONE").isSome = true) ∧
    settingsInit gsSecret true impEmptySecret "esec"
      = .error (.improperly "The SECRET_KEY setting must not be empty.") :=
  ⟨rfl, rfl, rfl, Or.inr rfl,
   (secret_key_checked_after_overlay gsSecret modEmptySecret true impEmptySecret
      "esec" stEmptySecret (PyVal.str "") rfl rfl rfl (Or.inr rfl)).1.mpr rfl⟩

/-- C5: with the selector unset, the first read of `name` through a fresh
proxy fails with Misconfiguration whose message contains `name`, and the
proxy state is unchanged (still unconfigured, nothing cached); once the
selector holds a module name whose construction succeeds, the same read
succeeds, binding the proxy and caching the value. -/
theorem unconfigured_access_error_and_retry (gs : PyMod) (tz : Bool)
    (imports : String → Option PyMod) (name m : String) (s : SettingsState)
    (v : PyVal)
    (hname : name ≠ "")
    (hm : m ≠ "")
    (hinit : settingsInit gs tz imports m = .ok s)
    (hval : sgetattr s name = .ok v) :
    (proxyGetattr Option.none imports gs tz initialProxy name
       = (.error (.improperly (setupMsg (some name))), initialProxy)) ∧
    (∃ a b, setupMsg (some name) = a ++ name ++ b) ∧
    (proxyGetattr (some m) imports gs tz initialProxy name
       = (.ok v, { wrapped := .settingsB s, cache := [(name, v)] })) := by
  have hb : (name == "") = false := beq_eq_false_iff_ne.mpr hname
  have hbm : (m == "") = false := beq_eq_false_iff_ne.mpr hm
  refine ⟨rfl, ?_, ?_⟩
  · refine ⟨"Requested setting ",
      ", but settings are not configured. You must either define the environment variable SKULD_SETTINGS_MODULE or call settings.configure() before accessing settings.", ?_⟩
    have hred : setupMsg (some name)
        = "Requested " ++ (if (!(name == "")) = true then "setting " ++ name else "settings")
            ++ ", but settings are not configured. You must either define the environment variable SKULD_SETTINGS_MODULE or call settings.configure() before accessing settings." := rfl
    rw [hred, hb,
        show ("Requested setting " : String) = "Requested " ++ "setting " from rfl,
        String.append_assoc ("Requested ") ("setting ") name]
    rfl
  · have henv : envTruthy (some m) = true := by
      simp [envTruthy, hbm]
    have hstep : proxyGetattr (some m) imports gs tz initialProxy name
        = (match sgetattr s name with
           | .error e => (.error e, { wrapped := .settingsB s, cache := [] })
           | .ok v2 => (.ok v2, { wrapped := .settingsB s,
                                  cache := dinsert [] name v2 })) := by
      unfold proxyGetattr
      rw [henv, Option.getD_some, hinit]
      rfl
    rw [hval] at hstep
    exact hstep

/-- Witness for C5 at the concrete fixtures: reading `DEBUG` fails while the
selector is unset and succeeds once it names `"myconf"`. -/
theorem unconfigured_access_error_and_retry_witness :
    ("DEBUG" : String) ≠ "" ∧ ("myconf" : String) ≠ "" ∧
    settingsInit gsDefault true impGood "myconf" = .ok sMyconf ∧
    sgetattr sMyconf "DEBUG" = .ok (PyVal.bool true) ∧
    ((proxyGetattr Option.none impGood gsDefault true initialProxy "DEBUG"
        = (.error (.improperly (setupMsg (some "DEBUG"))), initialProxy)) ∧
     (∃ a b, setupMsg (some "DEBUG") = a ++ "DEBUG" ++ b) ∧
     (proxyGetattr (some "myconf") impGood gsDefault true initialProxy "DEBUG"
        = (.ok (PyVal.bool true),
           { wrapped := .settingsB sMyconf,
             cache := [("DEBUG", PyVal.bool true)] }))) :=
  ⟨by decide, by decide, rfl, rfl,
   unconfigured_access_error_and_retry gsDefault true impGood "DEBUG" "myconf"
     sMyconf (PyVal.bool true) (by decide) (by decide) rfl rfl⟩
